import Mathlib

/-!
Verification development for the titanic-api repository.

The development shallowly embeds the core of the repository:
  * `app/services/data_service.py` — CSV type coercion (`CSVDataLoader._convert_types`),
    the dataset read surface (`DataService.get_passenger_by_id`,
    `DataService.get_passenger_attributes`, `DataService.get_fare_data`);
  * `app/services/analytics_service.py` — the percentile histogram engine
    (`PercentileCalculator.calculate_percentiles`,
    `FareHistogramCalculator.calculate`, `_create_histogram_buckets`,
    `_count_values_in_range`);
  * `app/utils/validators.py` — the validation helpers;
  * `app/models/passenger.py` — the `Passenger` pydantic model.

Python floats are modelled by `ℚ` (the reachable computations are sorting,
comparison and division of decimal inputs), Python ints by `ℤ`, rows
(Python dicts) by functions `String → Option Value` where `Option` separates
an absent key from a present `None` value.  Python exceptions (`ValueError`)
are modelled by `Except String`, carrying the source's message text.
-/

deriving instance DecidableEq for Except

namespace Titanic

/-- A scalar cell value of a raw row: Python int, float, str or None. -/
inductive Value where
  | int (n : ℤ)
  | float (q : ℚ)
  | str (s : String)
  | null
deriving DecidableEq, Repr

/-- A raw row: a Python dict from column name to scalar value.
`none` models an absent key, `some Value.null` a key mapped to Python `None`. -/
def Row := String → Option Value

/-- `row.get(k)`: Python `dict.get` returns `None` both for an absent key and
for a key holding `None`. -/
def Row.get (r : Row) (k : String) : Value := (r k).getD Value.null

/-- `row[k] = v`: functional update of a dict. -/
def Row.set (r : Row) (field : String) (v : Value) : Row :=
  fun k => if k = field then some v else r k

/-- Python truthiness of a cell value (`if row[field]:`). -/
def Value.truthy : Value → Bool
  | .null => false
  | .int n => n ≠ 0
  | .float q => q ≠ 0
  | .str s => s ≠ ""

/-- Value of a list of decimal digit characters. -/
def digitsToNat (cs : List Char) : ℕ :=
  cs.foldl (fun acc c => acc * 10 + (c.toNat - 48)) 0

/-- Core of the Python decimal parser: an unsigned run of digits with at most
one decimal point.  (The model covers the plain decimal forms occurring in
the data; exponent and infinity forms of Python `float` are out of scope.) -/
def pyFloatCore (cs : List Char) : Option ℚ :=
  match cs.splitOn (Char.ofNat 46) with
  | [intPart] =>
      if intPart ≠ [] ∧ intPart.all Char.isDigit then some (digitsToNat intPart) else none
  | [intPart, fracPart] =>
      if (intPart ≠ [] ∨ fracPart ≠ []) ∧ intPart.all Char.isDigit ∧ fracPart.all Char.isDigit
      then some ((digitsToNat intPart : ℚ) + (digitsToNat fracPart : ℚ) / (10 : ℚ) ^ fracPart.length)
      else none
  | _ => none

/-- Model of Python `float(s)` on a string: optional sign then a decimal run. -/
def pyFloat? (s : String) : Option ℚ :=
  match s.toList with
  | [] => none
  | c :: rest =>
      if c = Char.ofNat 45 then (pyFloatCore rest).map Neg.neg
      else if c = Char.ofNat 43 then pyFloatCore rest
      else pyFloatCore (c :: rest)

/-- Model of Python `int(s)` on a string: optional sign then digits only. -/
def pyIntOfStr? (s : String) : Option ℤ :=
  match s.toList with
  | [] => none
  | c :: rest =>
      if c = Char.ofNat 45 then
        if rest ≠ [] ∧ rest.all Char.isDigit then some (-(digitsToNat rest : ℤ)) else none
      else if c = Char.ofNat 43 then
        if rest ≠ [] ∧ rest.all Char.isDigit then some (digitsToNat rest) else none
      else
        if (c :: rest).all Char.isDigit then some (digitsToNat (c :: rest)) else none

/-- Model of Python `int(v)` on a cell value: identity on ints, truncation
toward zero on floats, string parse on strings, `TypeError` on `None`. -/
def pyIntOf : Value → Option ℤ
  | .int n => some n
  | .float q => some (if 0 ≤ q then ⌊q⌋ else ⌈q⌉)
  | .str s => pyIntOfStr? s
  | .null => none

/-- Model of Python `float(v)` on a cell value. -/
def pyFloatOf : Value → Option ℚ
  | .int n => some (n : ℚ)
  | .float q => some q
  | .str s => pyFloat? s
  | .null => none

/-! ### `CSVDataLoader._convert_types` (`app/services/data_service.py`) -/

/-- The columns coerced with `int(...)` by `_convert_types`. -/
def numeric_fields : List String := ["PassengerId", "Survived", "Pclass", "SibSp", "Parch"]

/-- The columns coerced with `float(...)` by `_convert_types`. -/
def float_fields : List String := ["Age", "Fare"]

/-- One iteration of the first loop of `_convert_types`: if the field is
present and truthy, try `int(row[field])`; on failure (`except: pass`) the
row is unchanged. -/
def applyIntField (r : Row) (field : String) : Row :=
  match r field with
  | none => r
  | some v =>
      if v.truthy then
        match pyIntOf v with
        | some n => r.set field (.int n)
        | none => r
      else r

/-- One iteration of the second loop of `_convert_types`: if the field is
present and truthy, try `float(row[field])`; on failure the row is unchanged. -/
def applyFloatField (r : Row) (field : String) : Row :=
  match r field with
  | none => r
  | some v =>
      if v.truthy then
        match pyFloatOf v with
        | some q => r.set field (.float q)
        | none => r
      else r

/-- The sentinel pass of `_convert_types`:
`if value == "" or value == "None": row[key] = None`. -/
def sentinel (v : Value) : Value :=
  if v = .str "" ∨ v = .str "None" then .null else v

/-- `CSVDataLoader._convert_types`: coerce the declared integer columns, then
the declared float columns, then map the sentinel strings to `None`. -/
def convert_types (row : Row) : Row :=
  let r1 := numeric_fields.foldl applyIntField row
  let r2 := float_fields.foldl applyFloatField r1
  fun k => (r2 k).map sentinel

/-- `SQLiteDataLoader.load_data` per-row treatment: each fetched row becomes
`dict(row)`, its cell values taken verbatim from the store — the SQLite
loader applies no type coercion and no sentinel mapping (contrast
`CSVDataLoader`, which runs `_convert_types` on every row). -/
def sqlite_row_convert (row : Row) : Row := row

/-! ### Validators (`app/utils/validators.py`) -/

/-- `validate_passenger_id`: positive id required. -/
def validate_passenger_id (passenger_id : ℤ) : Except String Unit :=
  if passenger_id ≤ 0 then .error "Passenger ID must be positive" else .ok ()

/-- `validate_percentiles`: `percentiles in range(5, 101)`. -/
def validate_percentiles (percentiles : ℕ) : Except String Unit :=
  if 5 ≤ percentiles ∧ percentiles ≤ 100 then .ok ()
  else .error "Percentiles must be between 5 and 100"

/-- `validate_attributes`: non-empty request, all names known; the error for
unknown names carries the offending names. -/
def validate_attributes (attributes : List String) (available_columns : List String) :
    Except String Unit :=
  if attributes = [] then
    .error "At least one attribute must be specified, empty attributes list provided"
  else
    match attributes.filter (fun a => !available_columns.contains a) with
    | [] => .ok ()
    | invalid => .error ("Invalid attributes requested: " ++ toString invalid)

/-! ### The `Passenger` pydantic model (`app/models/passenger.py`) -/

structure Passenger where
  PassengerId : ℤ
  Survived : ℤ
  Pclass : ℤ
  Name : String
  Sex : String
  Age : Option ℚ
  SibSp : ℤ
  Parch : ℤ
  Ticket : String
  Fare : Option ℚ
  Cabin : Option String
  Embarked : Option String
deriving DecidableEq, Repr

/-- Pydantic lax coercion into a required `int` field: ints, integral floats
and integer-shaped strings are accepted. -/
def coerceInt : Option Value → Option ℤ
  | some (.int n) => some n
  | some (.float q) => if q.den = 1 then some q.num else none
  | some (.str s) => pyIntOfStr? s
  | _ => none

/-- Pydantic coercion into a required `str` field. -/
def coerceStr : Option Value → Option String
  | some (.str s) => some s
  | _ => none

/-- Pydantic coercion into an `Optional[float]` field (absent key or `None`
value validate to `None`). -/
def coerceOptFloat : Option Value → Option (Option ℚ)
  | none => some none
  | some .null => some none
  | some (.int n) => some (some (n : ℚ))
  | some (.float q) => some (some q)
  | some (.str s) => (pyFloat? s).map some

/-- Pydantic coercion into an `Optional[str]` field. -/
def coerceOptStr : Option Value → Option (Option String)
  | none => some none
  | some .null => some none
  | some (.str s) => some (some s)
  | _ => none

/-- `Passenger(**row)`: build the validated record, or fail (`None`) when a
field rejects its cell. -/
def validatePassenger (r : Row) : Option Passenger := do
  let pid ← coerceInt (r "PassengerId")
  let surv ← coerceInt (r "Survived")
  let pclass ← coerceInt (r "Pclass")
  let name ← coerceStr (r "Name")
  let sex ← coerceStr (r "Sex")
  let age ← coerceOptFloat (r "Age")
  let sibsp ← coerceInt (r "SibSp")
  let parch ← coerceInt (r "Parch")
  let ticket ← coerceStr (r "Ticket")
  let fare ← coerceOptFloat (r "Fare")
  let cabin ← coerceOptStr (r "Cabin")
  let emb ← coerceOptStr (r "Embarked")
  pure ⟨pid, surv, pclass, name, sex, age, sibsp, parch, ticket, fare, cabin, emb⟩

/-! ### The dataset read surface (`DataService`) -/

/-- The loaded dataset: ordered raw rows plus the column list. -/
structure Dataset where
  data : List Row
  columns : List String

/-- Python `row.get("PassengerId") == passenger_id`: int/float cells compare
numerically with the int id, all other cells compare unequal. -/
def matchesId (passenger_id : ℤ) (r : Row) : Bool :=
  match r.get "PassengerId" with
  | .int n => n == passenger_id
  | .float q => q == (passenger_id : ℚ)
  | _ => false

/-- `DataService.get_passenger_by_id`: validate the id, then linear scan for
the first matching row; a validation failure on that row yields `None`. -/
def get_passenger_by_id (ds : Dataset) (passenger_id : ℤ) :
    Except String (Option Passenger) := do
  let _ ← validate_passenger_id passenger_id
  match ds.data.find? (matchesId passenger_id) with
  | some row => pure (validatePassenger row)
  | none => pure none

/-- `DataService.get_passenger_attributes`: validate the id and the attribute
names, then return the raw cells of the first matching row. -/
def get_passenger_attributes (ds : Dataset) (passenger_id : ℤ)
    (attributes : List String) : Except String (Option (List (String × Value))) := do
  let _ ← validate_passenger_id passenger_id
  let _ ← validate_attributes attributes ds.columns
  match ds.data.find? (matchesId passenger_id) with
  | some row => pure (some (attributes.map (fun a => (a, row.get a))))
  | none => pure none

/-- `DataService.get_fare_data`: collect `float(fare)` over rows whose `Fare`
cell is a non-null numeric value that is also non-negative. -/
def get_fare_data (ds : Dataset) : List ℚ :=
  ds.data.filterMap (fun row =>
    match row.get "Fare" with
    | .int n => if 0 ≤ n then some (n : ℚ) else none
    | .float q => if 0 ≤ q then some q else none
    | _ => none)

/-! ### The percentile histogram engine (`app/services/analytics_service.py`) -/

/-- `PercentileCalculator.calculate_percentiles`: sort ascending, then for
`i in range(num_percentiles + 1)` take
`sorted_data[int(i * 100 / num_percentiles / 100 * (len - 1))]`.
`int(...)` truncates toward zero; the argument is non-negative on the
reachable domain, so it is the floor. -/
def calculate_percentiles (data : List ℚ) (num_percentiles : ℕ) : List ℚ :=
  if data = [] then []
  else
    let sorted_data := data.insertionSort (· ≤ ·)
    (List.range (num_percentiles + 1)).map (fun (i : ℕ) =>
      let percentile : ℚ := (i : ℚ) * 100 / (num_percentiles : ℚ)
      let index : ℕ := (⌊percentile / 100 * ((data.length : ℚ) - 1)⌋).toNat
      sorted_data.getD index 0)

/-- One histogram bucket.  The source formats `lower` and `upper` into the
two-decimal `fare_range` string; the pair itself is kept here. -/
structure HistogramData where
  percentile : ℚ
  count : ℕ
  lower : ℚ
  upper : ℚ
deriving DecidableEq, Repr

/-- `HistogramResponse`: the buckets plus the total count of input values. -/
structure HistogramResponse where
  data : List HistogramData
  total_passengers : ℕ
deriving DecidableEq, Repr

/-- `FareHistogramCalculator._count_values_in_range`: inclusive lower bound;
the upper bound is inclusive only for the last bucket. -/
def count_values_in_range (data : List ℚ) (lower upper : ℚ)
    (is_last_bucket : Bool) : ℕ :=
  if is_last_bucket then
    (data.filter (fun v => decide (lower ≤ v) && decide (v ≤ upper))).length
  else
    (data.filter (fun v => decide (lower ≤ v) && decide (v < upper))).length

/-- `FareHistogramCalculator._create_histogram_buckets`: one bucket per
consecutive boundary pair, labelled `(i + 1) * (100 / percentiles)`. -/
def create_histogram_buckets (data : List ℚ) (boundaries : List ℚ)
    (percentiles : ℕ) : List HistogramData :=
  (List.range (boundaries.length - 1)).map (fun (i : ℕ) =>
    { percentile := ((i : ℚ) + 1) * (100 / (percentiles : ℚ))
      count := count_values_in_range data (boundaries.getD i 0)
        (boundaries.getD (i + 1) 0) (decide (i = boundaries.length - 2))
      lower := boundaries.getD i 0
      upper := boundaries.getD (i + 1) 0 })

/-- `FareHistogramCalculator.calculate`: validate the bucket count, reject an
empty input, then build the buckets; `total_passengers = len(data)`. -/
def calculate (data : List ℚ) (percentiles : ℕ) : Except String HistogramResponse :=
  match validate_percentiles percentiles with
  | .error e => .error e
  | .ok _ =>
      if data = [] then .error "No fare data available for histogram"
      else
        let boundaries := calculate_percentiles data percentiles
        .ok { data := create_histogram_buckets data boundaries percentiles
              total_passengers := data.length }

/-! ### Definitions modelled from the spec (for refinement comparisons) -/

/-- Modelled from the spec: the linear-interpolation percentile boundary for
percentile `p` over an ascending-sorted list: the index is `p/100 * (n-1)`;
a fractional index interpolates between the two adjacent sorted values. -/
def interpBoundary (sorted : List ℚ) (p : ℚ) : ℚ :=
  let idx : ℚ := p / 100 * ((sorted.length : ℚ) - 1)
  let lo : ℕ := (⌊idx⌋).toNat
  let hi : ℕ := (⌈idx⌉).toNat
  let frac : ℚ := idx - (⌊idx⌋ : ℚ)
  (1 - frac) * sorted.getD lo 0 + frac * sorted.getD hi 0

/-- Modelled from the spec: all `bucket_count + 1` linear-interpolation
boundaries at percentiles `0, 100/bucket_count, …, 100`. -/
def interpBoundaries (data : List ℚ) (bucket_count : ℕ) : List ℚ :=
  let sorted := data.insertionSort (· ≤ ·)
  (List.range (bucket_count + 1)).map (fun (i : ℕ) =>
    interpBoundary sorted ((i : ℚ) * 100 / (bucket_count : ℚ)))

/-- Modelled from the spec: `numeric_column` keeps exactly the non-null
numeric cells, coerced to float — the null/non-numeric skipping the spec
describes, with no further filtering. -/
def numericCell : Value → Option ℚ
  | .int n => some (n : ℚ)
  | .float q => some q
  | _ => none

/-! ### Proof-layer definitions -/

/-- The effect of one integer-coercion iteration of `_convert_types` on the
cell of the field being processed. -/
def intCell : Option Value → Option Value
  | none => none
  | some v =>
      if v.truthy then
        match pyIntOf v with
        | some n => some (.int n)
        | none => some v
      else some v

/-- The effect of one float-coercion iteration of `_convert_types` on the
cell of the field being processed. -/
def floatCell : Option Value → Option Value
  | none => none
  | some v =>
      if v.truthy then
        match pyFloatOf v with
        | some q => some (.float q)
        | none => some v
      else some v

/-- Membership of a value in bucket `i` out of `k` buckets with boundary
function `b`: inclusive/exclusive, except the last bucket (both inclusive). -/
def bucketPred (b : ℕ → ℚ) (k i : ℕ) (v : ℚ) : Bool :=
  if i = k - 1 then decide (b i ≤ v) && decide (v ≤ b (i + 1))
  else decide (b i ≤ v) && decide (v < b (i + 1))

/-- The floor-index of boundary `i` for `k` buckets over `n` sorted values,
as plain natural division. -/
def boundaryIndex (n k i : ℕ) : ℕ := i * (n - 1) / k

/-- Boundary `i` of `k` buckets over `data`: the sorted value at the floor
index. -/
def bVal (data : List ℚ) (k i : ℕ) : ℚ :=
  (data.insertionSort (· ≤ ·)).getD (boundaryIndex data.length k i) 0

/-- A minimal raw row holding only a passenger id (for concrete scenarios). -/
def mkIdRow (n : ℤ) : Row :=
  fun k => if k = "PassengerId" then some (Value.int n) else none

/-! ## Helper lemmas: the CSV type coercion -/

theorem applyIntField_apply (r : Row) (f k : String) :
    applyIntField r f k = if k = f then intCell (r f) else r k := by
  by_cases hk : k = f
  · subst hk
    cases hf : r k with
    | none => simp [applyIntField, intCell, hf]
    | some v =>
        by_cases ht : v.truthy
        · cases hp : pyIntOf v with
          | some n => simp [applyIntField, intCell, hf, ht, hp, Row.set]
          | none => simp [applyIntField, intCell, hf, ht, hp]
        · simp [applyIntField, intCell, hf, ht]
  · cases hf : r f with
    | none => simp [applyIntField, hf, hk]
    | some v =>
        by_cases ht : v.truthy
        · cases hp : pyIntOf v with
          | some n => simp [applyIntField, hf, ht, hp, Row.set, hk]
          | none => simp [applyIntField, hf, ht, hp, hk]
        · simp [applyIntField, hf, ht, hk]

theorem applyFloatField_apply (r : Row) (f k : String) :
    applyFloatField r f k = if k = f then floatCell (r f) else r k := by
  by_cases hk : k = f
  · subst hk
    cases hf : r k with
    | none => simp [applyFloatField, floatCell, hf]
    | some v =>
        by_cases ht : v.truthy
        · cases hp : pyFloatOf v with
          | some q => simp [applyFloatField, floatCell, hf, ht, hp, Row.set]
          | none => simp [applyFloatField, floatCell, hf, ht, hp]
        · simp [applyFloatField, floatCell, hf, ht]
  · cases hf : r f with
    | none => simp [applyFloatField, hf, hk]
    | some v =>
        by_cases ht : v.truthy
        · cases hp : pyFloatOf v with
          | some q => simp [applyFloatField, hf, ht, hp, Row.set, hk]
          | none => simp [applyFloatField, hf, ht, hp, hk]
        · simp [applyFloatField, hf, ht, hk]

/-- Pointwise description of `_convert_types`: each key sees its own cell run
through the integer coercion, the float coercion or neither, then the
sentinel mapping. -/
theorem convert_types_apply (r : Row) (k : String) :
    convert_types r k =
      Option.map sentinel
        (if k ∈ numeric_fields then intCell (r k)
         else if k ∈ float_fields then floatCell (r k)
         else r k) := by
  show Option.map sentinel ((float_fields.foldl applyFloatField
      (numeric_fields.foldl applyIntField r)) k) = _
  simp only [numeric_fields, float_fields, List.foldl_cons, List.foldl_nil]
  simp only [applyFloatField_apply, applyIntField_apply]
  by_cases h1 : k = "PassengerId"
  · subst h1; simp
  · by_cases h2 : k = "Survived"
    · subst h2; simp
    · by_cases h3 : k = "Pclass"
      · subst h3; simp
      · by_cases h4 : k = "SibSp"
        · subst h4; simp
        · by_cases h5 : k = "Parch"
          · subst h5; simp
          · by_cases h6 : k = "Age"
            · subst h6; simp
            · by_cases h7 : k = "Fare"
              · subst h7; simp
              · simp [h1, h2, h3, h4, h5, h6, h7]

theorem sentinel_eq_null (v : Value) :
    sentinel v = .null ↔ (v = .null ∨ v = .str "" ∨ v = .str "None") := by
  cases v with
  | null => simp [sentinel]
  | int n => simp [sentinel]
  | float q => simp [sentinel]
  | str s => by_cases h1 : s = "" <;> by_cases h2 : s = "None" <;> simp [sentinel, h1, h2]

theorem map_sentinel_eq_null (ov : Option Value) :
    Option.map sentinel ov = some .null ↔
      (ov = some .null ∨ ov = some (.str "") ∨ ov = some (.str "None")) := by
  cases ov with
  | none => simp
  | some v => simpa using sentinel_eq_null v

theorem pyIntOfStr_empty : pyIntOfStr? "" = none := by decide

theorem pyIntOfStr_none_str : pyIntOfStr? "None" = none := by decide

theorem pyFloat_empty : pyFloat? "" = none := by decide

theorem pyFloat_none_str : pyFloat? "None" = none := by decide

theorem map_sentinel_intCell_eq_null (ov : Option Value) :
    Option.map sentinel (intCell ov) = some .null ↔
      (ov = some .null ∨ ov = some (.str "") ∨ ov = some (.str "None")) := by
  cases ov with
  | none => simp [intCell]
  | some v =>
      cases v with
      | null => simp [intCell, Value.truthy, sentinel]
      | int n =>
          by_cases hn : n = 0 <;>
            simp [intCell, Value.truthy, hn, pyIntOf, sentinel]
      | float q =>
          by_cases hq : q = 0 <;>
            simp [intCell, Value.truthy, hq, pyIntOf, sentinel]
      | str s =>
          by_cases hs : s = ""
          · subst hs; simp [intCell, Value.truthy, sentinel]
          · cases hp : pyIntOfStr? s with
            | some n =>
                have hnone : ¬s = "None" := by
                  intro h; subst h; rw [pyIntOfStr_none_str] at hp; cases hp
                simp [intCell, Value.truthy, hs, pyIntOf, hp, sentinel, hnone]
            | none =>
                simp [intCell, Value.truthy, hs, pyIntOf, hp, sentinel_eq_null]

theorem map_sentinel_floatCell_eq_null (ov : Option Value) :
    Option.map sentinel (floatCell ov) = some .null ↔
      (ov = some .null ∨ ov = some (.str "") ∨ ov = some (.str "None")) := by
  cases ov with
  | none => simp [floatCell]
  | some v =>
      cases v with
      | null => simp [floatCell, Value.truthy, sentinel]
      | int n =>
          by_cases hn : n = 0 <;>
            simp [floatCell, Value.truthy, hn, pyFloatOf, sentinel]
      | float q =>
          by_cases hq : q = 0 <;>
            simp [floatCell, Value.truthy, hq, pyFloatOf, sentinel]
      | str s =>
          by_cases hs : s = ""
          · subst hs; simp [floatCell, Value.truthy, sentinel]
          · cases hp : pyFloat? s with
            | some q =>
                have hnone : ¬s = "None" := by
                  intro h; subst h; rw [pyFloat_none_str] at hp; cases hp
                simp [floatCell, Value.truthy, hs, pyFloatOf, hp, sentinel, hnone]
            | none =>
                simp [floatCell, Value.truthy, hs, pyFloatOf, hp, sentinel_eq_null]

/-- Null-characterization of the CSV loader coercion: a cell is null after
`_convert_types` exactly when it was null, the empty string, or the exact
string `"None"` before. -/
theorem convert_types_null_iff (r : Row) (k : String) :
    convert_types r k = some .null ↔
      (r k = some .null ∨ r k = some (.str "") ∨ r k = some (.str "None")) := by
  rw [convert_types_apply]
  by_cases h1 : k ∈ numeric_fields
  · simp only [h1, if_true]
    exact map_sentinel_intCell_eq_null (r k)
  · by_cases h2 : k ∈ float_fields
    · simp only [h1, h2, if_true, if_false]
      exact map_sentinel_floatCell_eq_null (r k)
    · simp only [h1, h2, if_false]
      exact map_sentinel_eq_null (r k)

/-! ## Helper lemmas: the percentile engine -/

theorem length_insertionSort_rat (l : List ℚ) :
    (l.insertionSort (· ≤ ·)).length = l.length :=
  (List.perm_insertionSort _ _).length_eq

theorem sorted_getD_mono (l : List ℚ) (hs : l.Sorted (· ≤ ·)) {i j : ℕ}
    (hij : i ≤ j) (hj : j < l.length) : l.getD i 0 ≤ l.getD j 0 := by
  have hi : i < l.length := lt_of_le_of_lt hij hj
  rw [List.getD_eq_getElem l 0 hi, List.getD_eq_getElem l 0 hj]
  have := hs.rel_get_of_le (a := ⟨i, hi⟩) (b := ⟨j, hj⟩) hij
  simpa using this

theorem boundaryIndex_mono (n k : ℕ) {i j : ℕ} (hij : i ≤ j) :
    boundaryIndex n k i ≤ boundaryIndex n k j :=
  Nat.div_le_div_right (Nat.mul_le_mul_right _ hij)

theorem boundaryIndex_le (n k : ℕ) (hk : 1 ≤ k) {i : ℕ} (hi : i ≤ k) :
    boundaryIndex n k i ≤ n - 1 := by
  unfold boundaryIndex
  calc i * (n - 1) / k ≤ k * (n - 1) / k :=
        Nat.div_le_div_right (Nat.mul_le_mul_right _ hi)
  _ = n - 1 := Nat.mul_div_cancel_left _ (by omega)

theorem boundaryIndex_zero (n k : ℕ) : boundaryIndex n k 0 = 0 := by
  simp [boundaryIndex]

theorem boundaryIndex_last (n k : ℕ) (hk : 1 ≤ k) : boundaryIndex n k k = n - 1 := by
  unfold boundaryIndex
  exact Nat.mul_div_cancel_left _ (by omega)

/-- The engine's boundary list, rewritten with plain natural-division
indices: boundary `i` is the sorted value at index `i * (n - 1) / k`. -/
theorem calculate_percentiles_eq (data : List ℚ) (k : ℕ) (hd : data ≠ [])
    (hk : 1 ≤ k) :
    calculate_percentiles data k =
      (List.range (k + 1)).map
        (fun i => (data.insertionSort (· ≤ ·)).getD (boundaryIndex data.length k i) 0) := by
  unfold calculate_percentiles
  rw [if_neg hd]
  refine List.map_congr_left (fun i _ => ?_)
  show (data.insertionSort (· ≤ ·)).getD
      ((⌊(i : ℚ) * 100 / (k : ℚ) / 100 * ((data.length : ℚ) - 1)⌋).toNat) 0 = _
  congr 1
  have hn : 1 ≤ data.length := List.length_pos.mpr hd
  have hk0 : (k : ℚ) ≠ 0 := Nat.cast_ne_zero.mpr (by omega)
  have harith : (i : ℚ) * 100 / (k : ℚ) / 100 * ((data.length : ℚ) - 1)
      = ((i * (data.length - 1) : ℕ) : ℚ) / (k : ℚ) := by
    push_cast [Nat.cast_sub hn]
    field_simp
    ring
  rw [harith, Int.floor_toNat, Nat.floor_div_nat, Nat.floor_natCast]
  rfl

theorem calculate_percentiles_length (data : List ℚ) (k : ℕ) (hd : data ≠ [])
    (hk : 1 ≤ k) : (calculate_percentiles data k).length = k + 1 := by
  rw [calculate_percentiles_eq data k hd hk]
  simp

theorem calculate_percentiles_getD (data : List ℚ) (k : ℕ) (hd : data ≠ [])
    (hk : 1 ≤ k) {i : ℕ} (hi : i ≤ k) :
    (calculate_percentiles data k).getD i 0 = bVal data k i := by
  rw [calculate_percentiles_eq data k hd hk]
  rw [List.getD_eq_getElem _ _ (by simp; omega)]
  simp [bVal]

theorem bVal_mono (data : List ℚ) (k : ℕ) (hd : data ≠ []) (hk : 1 ≤ k)
    {i j : ℕ} (hij : i ≤ j) (hj : j ≤ k) : bVal data k i ≤ bVal data k j := by
  have hn : 1 ≤ data.length := List.length_pos.mpr hd
  apply sorted_getD_mono _ (List.sorted_insertionSort _ _)
    (boundaryIndex_mono _ _ hij)
  rw [length_insertionSort_rat]
  have := boundaryIndex_le data.length k hk hj
  omega

theorem bVal_zero_le (data : List ℚ) (k : ℕ) (_hd : data ≠ []) {v : ℚ}
    (hv : v ∈ data) : bVal data k 0 ≤ v := by
  rw [← List.mem_insertionSort (· ≤ ·)] at hv
  obtain ⟨t, ht, rfl⟩ := List.getElem_of_mem hv
  rw [bVal, boundaryIndex_zero,
    List.getD_eq_getElem _ 0 (by omega)]
  have := (List.sorted_insertionSort (· ≤ ·) data).rel_get_of_le
    (a := ⟨0, by omega⟩) (b := ⟨t, ht⟩) (by simp)
  simpa using this

theorem le_bVal_last (data : List ℚ) (k : ℕ) (hd : data ≠ []) (hk : 1 ≤ k)
    {v : ℚ} (hv : v ∈ data) : v ≤ bVal data k k := by
  have hn : 1 ≤ data.length := List.length_pos.mpr hd
  rw [← List.mem_insertionSort (· ≤ ·)] at hv
  obtain ⟨t, ht, rfl⟩ := List.getElem_of_mem hv
  have ht2 : t < data.length := by
    have := length_insertionSort_rat data
    omega
  rw [bVal, boundaryIndex_last _ _ hk,
    List.getD_eq_getElem _ 0 (by rw [length_insertionSort_rat]; omega)]
  have := (List.sorted_insertionSort (· ≤ ·) data).rel_get_of_le
    (a := ⟨t, ht⟩)
    (b := ⟨data.length - 1, by rw [length_insertionSort_rat]; omega⟩)
    (by simp; omega)
  simpa using this

theorem bVal_last_mem (data : List ℚ) (k : ℕ) (hd : data ≠ []) (hk : 1 ≤ k) :
    bVal data k k ∈ data := by
  have hn : 1 ≤ data.length := List.length_pos.mpr hd
  rw [bVal, boundaryIndex_last _ _ hk,
    List.getD_eq_getElem _ 0 (by rw [length_insertionSort_rat]; omega)]
  rw [← List.mem_insertionSort (· ≤ ·)]
  exact List.getElem_mem _

/-! ## Helper lemmas: counting -/

theorem sum_map_range (k : ℕ) (g : ℕ → ℕ) :
    ((List.range k).map g).sum = ∑ i ∈ Finset.range k, g i := by
  induction k with
  | zero => simp
  | succ m ih =>
      rw [List.range_succ, List.map_append, List.sum_append,
        Finset.sum_range_succ, ih]
      simp

theorem sum_countP_swap (l : List ℚ) (P : ℕ → ℚ → Bool) (k : ℕ) :
    ∑ i ∈ Finset.range k, l.countP (P i)
      = (l.map (fun v => ((Finset.range k).filter (fun i => P i v)).card)).sum := by
  induction l with
  | nil => simp
  | cons a t ih =>
      simp only [List.countP_cons, List.map_cons, List.sum_cons,
        Finset.sum_add_distrib, ih]
      rw [Finset.card_filter]
      omega

/-- Every value between the first and last boundary lies in exactly one
bucket: the inclusive/exclusive policy with an inclusive last bucket makes
the buckets a partition. -/
theorem bucketPred_unique (b : ℕ → ℚ) (k : ℕ) (hk : 1 ≤ k)
    (hmono : ∀ i j, i ≤ j → j ≤ k → b i ≤ b j) (v : ℚ)
    (h0 : b 0 ≤ v) (hvk : v ≤ b k) :
    ((Finset.range k).filter (fun i => bucketPred b k i v)).card = 1 := by
  rw [Finset.card_eq_one]
  set j := Nat.findGreatest (fun i => b i ≤ v) (k - 1) with hj
  have hj_le : j ≤ k - 1 := Nat.findGreatest_le _
  have hPj : b j ≤ v :=
    Nat.findGreatest_spec (P := fun i => b i ≤ v) (Nat.zero_le _) h0
  have hgreat : ∀ m, j < m → m ≤ k - 1 → ¬ (b m ≤ v) := fun m h1 h2 =>
    Nat.findGreatest_is_greatest (P := fun i => b i ≤ v) h1 h2
  refine ⟨j, ?_⟩
  ext i
  simp only [Finset.mem_filter, Finset.mem_range, Finset.mem_singleton]
  constructor
  · rintro ⟨hik, hpred⟩
    have hble : b i ≤ v := by
      unfold bucketPred at hpred
      by_cases hlast : i = k - 1
      · subst hlast
        simp at hpred
        exact hpred.1
      · simp [hlast] at hpred
        exact hpred.1
    have hij : i ≤ j := by
      by_contra hcon
      exact hgreat i (by omega) (by omega) hble
    by_contra hne
    have hilt : i < j := by omega
    have hik1 : ¬ (i = k - 1) := by omega
    have hvlt : v < b (i + 1) := by
      unfold bucketPred at hpred
      simp [hik1] at hpred
      exact hpred.2
    have : b (i + 1) ≤ b j := hmono (i + 1) j (by omega) (by omega)
    linarith
  · rintro rfl
    refine ⟨by omega, ?_⟩
    unfold bucketPred
    by_cases hlast : j = k - 1
    · simp only [hlast, if_true]
      have : b ((k - 1) + 1) = b k := by congr 1; omega
      rw [this]
      simp only [Bool.and_eq_true, decide_eq_true_eq]
      exact ⟨hlast ▸ hPj, hvk⟩
    · simp only [hlast, if_false]
      have hvlt : v < b (j + 1) := by
        have := hgreat (j + 1) (by omega) (by omega)
        exact lt_of_not_le this
      simp only [Bool.and_eq_true, decide_eq_true_eq]
      exact ⟨hPj, hvlt⟩

/-! ## Core lemmas about `calculate` -/

/-- The bucket list, fully characterised: bucket `i` carries boundaries
`bVal i`, `bVal (i+1)` and counts the values satisfying `bucketPred`. -/
theorem create_buckets_eq (data : List ℚ) (k : ℕ) (hd : data ≠ []) (hk : 1 ≤ k) :
    create_histogram_buckets data (calculate_percentiles data k) k =
      (List.range k).map (fun (i : ℕ) =>
        { percentile := ((i : ℚ) + 1) * (100 / (k : ℚ))
          count := data.countP (bucketPred (bVal data k) k i)
          lower := bVal data k i
          upper := bVal data k (i + 1) }) := by
  unfold create_histogram_buckets
  rw [calculate_percentiles_length data k hd hk]
  have h1 : k + 1 - 1 = k := by omega
  rw [h1]
  refine List.map_congr_left (fun i hi => ?_)
  rw [List.mem_range] at hi
  have hgi : (calculate_percentiles data k).getD i 0 = bVal data k i :=
    calculate_percentiles_getD data k hd hk (by omega)
  have hgi1 : (calculate_percentiles data k).getD (i + 1) 0 = bVal data k (i + 1) :=
    calculate_percentiles_getD data k hd hk (by omega)
  rw [hgi, hgi1]
  have h2 : k + 1 - 2 = k - 1 := by omega
  rw [h2]
  have hcount : count_values_in_range data (bVal data k i) (bVal data k (i + 1))
      (decide (i = k - 1)) = data.countP (bucketPred (bVal data k) k i) := by
    unfold count_values_in_range
    rw [List.countP_eq_length_filter]
    by_cases hlast : i = k - 1
    · rw [if_pos (by simp [hlast])]
      refine congrArg List.length (List.filter_congr fun v hv => ?_)
      simp [bucketPred, hlast]
    · rw [if_neg (by simp [hlast])]
      refine congrArg List.length (List.filter_congr fun v hv => ?_)
      simp [bucketPred, hlast]
  rw [hcount]

theorem calculate_eq_ok (data : List ℚ) (k : ℕ) (hd : data ≠ [])
    (h5 : 5 ≤ k) (h100 : k ≤ 100) :
    calculate data k = Except.ok
      { data := create_histogram_buckets data (calculate_percentiles data k) k
        total_passengers := data.length } := by
  unfold calculate validate_percentiles
  rw [if_pos ⟨h5, h100⟩]
  rw [if_neg hd]

/-- The sum of the bucket counts is exactly the number of input values. -/
theorem sum_counts_core (data : List ℚ) (k : ℕ) (hd : data ≠ [])
    (h5 : 5 ≤ k) (h100 : k ≤ 100) :
    ((create_histogram_buckets data (calculate_percentiles data k) k).map
        HistogramData.count).sum = data.length := by
  have hk : 1 ≤ k := by omega
  rw [create_buckets_eq data k hd hk, List.map_map]
  show ((List.range k).map
      (fun (i : ℕ) => data.countP (bucketPred (bVal data k) k i))).sum = data.length
  rw [sum_map_range, sum_countP_swap]
  have hone : ∀ v ∈ data,
      ((Finset.range k).filter (fun i => bucketPred (bVal data k) k i v)).card = 1 :=
    fun v hv =>
      bucketPred_unique (bVal data k) k hk
        (fun i j hij hj => bVal_mono data k hd hk hij hj) v
        (bVal_zero_le data k hd hv) (le_bVal_last data k hd hk hv)
  rw [List.map_congr_left hone]
  simp

theorem create_buckets_getElem (data : List ℚ) (k : ℕ) (hd : data ≠ [])
    (hk : 1 ≤ k) {i : ℕ} (hi : i < k) :
    (create_histogram_buckets data (calculate_percentiles data k) k)[i]? =
      some { percentile := ((i : ℚ) + 1) * (100 / (k : ℚ))
             count := data.countP (bucketPred (bVal data k) k i)
             lower := bVal data k i
             upper := bVal data k (i + 1) } := by
  rw [create_buckets_eq data k hd hk]
  simp [List.getElem?_map, List.getElem?_range, hi]

/-! ## Helper lemmas: linear lookup -/

theorem find?_first {α : Type} (p : α → Bool) (pre post : List α) (a : α)
    (hpre : ∀ x ∈ pre, p x = false) (ha : p a = true) :
    (pre ++ a :: post).find? p = some a := by
  induction pre with
  | nil => simpa using List.find?_cons_of_pos post ha
  | cons b t ih =>
      have hb : ¬ p b = true := by
        rw [hpre b (by simp)]
        simp
      rw [List.cons_append, List.find?_cons_of_neg _ hb]
      exact ih (fun x hx => hpre x (by simp [hx]))

/-! ## Claim theorems -/

/-- C1, counterexample: the engine does NOT use linear-interpolation
percentile semantics.  On values `[0, 1]` with `bucket_count = 5` the engine
returns `[0, 0, 0, 0, 0, 1]` while linear interpolation would give
`[0, 1/5, 2/5, 3/5, 4/5, 1]`. -/
theorem boundaries_not_interpolated_cx :
    calculate_percentiles [(0 : ℚ), 1] 5 = [0, 0, 0, 0, 0, 1] ∧
    interpBoundaries [(0 : ℚ), 1] 5 = [0, 1/5, 2/5, 3/5, 4/5, 1] ∧
    calculate_percentiles [(0 : ℚ), 1] 5 ≠ interpBoundaries [(0 : ℚ), 1] 5 := by
  refine ⟨by with_unfolding_all decide, by with_unfolding_all decide,
    by with_unfolding_all decide⟩

/-- C1, amended: for every non-empty values list and every bucket count in
`[5, 100]`, the engine computes its `bucket_count + 1` boundary points by the
nearest-rank floor-index rule: the boundary at percentile `p = i*100/k` is
the ascending-sorted value at index `⌊p/100*(n-1)⌋ = i*(n-1)/k`, with no
interpolation when the index is fractional. -/
theorem boundaries_floor_index (data : List ℚ) (k : ℕ) (hd : data ≠ [])
    (h5 : 5 ≤ k) (h100 : k ≤ 100) :
    calculate_percentiles data k =
      (List.range (k + 1)).map
        (fun (i : ℕ) =>
          (data.insertionSort (· ≤ ·)).getD (i * (data.length - 1) / k) 0) :=
  calculate_percentiles_eq data k hd (by omega)

/-- Witness for C1 at values `[0, 1]`, `bucket_count = 5`. -/
theorem boundaries_floor_index_witness :
    calculate_percentiles [(0 : ℚ), 1] 5 = [0, 0, 0, 0, 0, 1] := by
  rw [boundaries_floor_index [(0 : ℚ), 1] 5 (by decide) (by decide) (by decide)]
  with_unfolding_all decide

/-- C2: for every non-empty values list and every bucket count in `[5, 100]`,
the sum of the per-bucket counts equals `total_passengers`, which equals the
number of input values. -/
theorem histogram_counts_sum_eq_total (data : List ℚ) (k : ℕ) (hd : data ≠ [])
    (h5 : 5 ≤ k) (h100 : k ≤ 100) (resp : HistogramResponse)
    (hr : calculate data k = Except.ok resp) :
    (resp.data.map HistogramData.count).sum = resp.total_passengers ∧
      resp.total_passengers = data.length := by
  rw [calculate_eq_ok data k hd h5 h100] at hr
  injection hr with h
  subst h
  exact ⟨sum_counts_core data k hd h5 h100, rfl⟩

/-- Witness for C2 at the spec's concrete scenario
`[7.25, 71.28, 8.05, 53.10, 7.25]` with 5 buckets. -/
theorem histogram_counts_sum_eq_total_witness :
    ∃ resp : HistogramResponse,
      calculate [(29 : ℚ)/4, 1782/25, 161/20, 531/10, 29/4] 5 = Except.ok resp ∧
      ((resp.data.map HistogramData.count).sum = resp.total_passengers ∧
        resp.total_passengers = [(29 : ℚ)/4, 1782/25, 161/20, 531/10, 29/4].length) :=
  ⟨_, by with_unfolding_all rfl,
    histogram_counts_sum_eq_total _ 5 (by decide) (by decide) (by decide) _
      (by with_unfolding_all rfl)⟩

/-- C3: bucket membership is inclusive of the lower boundary and exclusive
of the upper for every bucket except the last, which is inclusive of both;
consequently the maximum of the input values is counted in the last bucket
(which therefore has count at least 1). -/
theorem bucket_boundary_policy (data : List ℚ) (k : ℕ) (hd : data ≠ [])
    (h5 : 5 ≤ k) (h100 : k ≤ 100) (resp : HistogramResponse)
    (hr : calculate data k = Except.ok resp) :
    (∀ i, i + 1 < k → ∀ bkt, resp.data[i]? = some bkt →
        bkt.count =
          data.countP (fun v => decide (bkt.lower ≤ v) && decide (v < bkt.upper))) ∧
    (∀ bkt, resp.data[k - 1]? = some bkt →
        bkt.count =
          data.countP (fun v => decide (bkt.lower ≤ v) && decide (v ≤ bkt.upper)) ∧
        ∃ v ∈ data, (∀ u ∈ data, u ≤ v) ∧
          bkt.lower ≤ v ∧ v ≤ bkt.upper ∧ 1 ≤ bkt.count) := by
  have hk : 1 ≤ k := by omega
  rw [calculate_eq_ok data k hd h5 h100] at hr
  injection hr with h
  subst h
  constructor
  · intro i hik bkt hbkt
    rw [create_buckets_getElem data k hd hk (by omega)] at hbkt
    injection hbkt with hb
    subst hb
    show data.countP (bucketPred (bVal data k) k i) = _
    have heq : bucketPred (bVal data k) k i = fun v =>
        decide (bVal data k i ≤ v) && decide (v < bVal data k (i + 1)) := by
      funext v
      unfold bucketPred
      rw [if_neg (by omega)]
    rw [heq]
  · intro bkt hbkt
    rw [create_buckets_getElem data k hd hk (by omega)] at hbkt
    injection hbkt with hb
    subst hb
    have hk1 : k - 1 + 1 = k := by omega
    have heq : bucketPred (bVal data k) k (k - 1) = fun v =>
        decide (bVal data k (k - 1) ≤ v) && decide (v ≤ bVal data k (k - 1 + 1)) := by
      funext v
      unfold bucketPred
      rw [if_pos rfl]
    constructor
    · show data.countP (bucketPred (bVal data k) k (k - 1)) = _
      rw [heq]
    · refine ⟨bVal data k k, bVal_last_mem data k hd hk,
        fun u hu => le_bVal_last data k hd hk hu, ?_, ?_, ?_⟩
      · show bVal data k (k - 1) ≤ bVal data k k
        exact bVal_mono data k hd hk (by omega) (le_refl k)
      · show bVal data k k ≤ bVal data k (k - 1 + 1)
        rw [hk1]
      · show 1 ≤ data.countP (bucketPred (bVal data k) k (k - 1))
        have hpos : 0 < data.countP (bucketPred (bVal data k) k (k - 1)) := by
          rw [List.countP_pos_iff]
          refine ⟨bVal data k k, bVal_last_mem data k hd hk, ?_⟩
          rw [heq]
          simp only [Bool.and_eq_true, decide_eq_true_eq]
          exact ⟨bVal_mono data k hd hk (by omega) (le_refl k), by rw [hk1]⟩
        omega

set_option maxHeartbeats 1600000 in
/-- Witness for C3: on the spec scenario the last bucket of
`calculate [7.25, 71.28, 8.05, 53.10, 7.25] 5` counts with both boundaries
inclusive, and the maximum `71.28` is counted in it. -/
theorem bucket_boundary_policy_witness :
    ∃ resp : HistogramResponse,
      calculate [(29 : ℚ)/4, 1782/25, 161/20, 531/10, 29/4] 5 = Except.ok resp ∧
      ∀ bkt, resp.data[5 - 1]? = some bkt →
        bkt.count = [(29 : ℚ)/4, 1782/25, 161/20, 531/10, 29/4].countP
          (fun v => decide (bkt.lower ≤ v) && decide (v ≤ bkt.upper)) ∧
        ∃ v ∈ [(29 : ℚ)/4, 1782/25, 161/20, 531/10, 29/4],
          (∀ u ∈ [(29 : ℚ)/4, 1782/25, 161/20, 531/10, 29/4], u ≤ v) ∧
          bkt.lower ≤ v ∧ v ≤ bkt.upper ∧ 1 ≤ bkt.count :=
  ⟨_, by with_unfolding_all rfl,
    (bucket_boundary_policy _ 5 (by decide) (by decide) (by decide) _
      (by with_unfolding_all rfl)).2⟩

/-- C4, counterexample: on an empty list with an out-of-range bucket count
the engine fails with the bucket-count (InvalidArgument) error, not the
empty-input error, because the bucket-count check runs first — so "fails
with EmptyInput exactly when the values list is empty" is false. -/
theorem histogram_error_precedence_cx :
    calculate ([] : List ℚ) 200 = Except.error "Percentiles must be between 5 and 100" ∧
    calculate ([] : List ℚ) 200 ≠ Except.error "No fare data available for histogram" := by
  refine ⟨rfl, by decide⟩

/-- C4, amended: the histogram fails with the InvalidArgument (bucket-count)
error exactly when `bucket_count` is outside `[5, 100]`; it fails with the
EmptyInput error exactly when `bucket_count` is in range AND the values list
is empty (the bucket-count check runs first); the two failures carry
distinct messages, so a caller can distinguish them; no other error exists.
In particular `histogram([], 10)` fails with EmptyInput. -/
theorem histogram_error_conditions (data : List ℚ) (k : ℕ) :
    (calculate data k = Except.error "Percentiles must be between 5 and 100" ↔
      ¬(5 ≤ k ∧ k ≤ 100)) ∧
    (calculate data k = Except.error "No fare data available for histogram" ↔
      ((5 ≤ k ∧ k ≤ 100) ∧ data = [])) ∧
    (∀ e, calculate data k = Except.error e →
        e = "Percentiles must be between 5 and 100" ∨
        e = "No fare data available for histogram") := by
  unfold calculate validate_percentiles
  by_cases hv : 5 ≤ k ∧ k ≤ 100
  · rw [if_pos hv]
    by_cases hd : data = []
    · rw [if_pos hd]
      refine ⟨?_, ?_, ?_⟩ <;> simp [hv, hd]
    · rw [if_neg hd]
      refine ⟨?_, ?_, ?_⟩ <;> simp [hv, hd]
  · rw [if_neg hv]
    refine ⟨?_, ?_, ?_⟩ <;> simp [hv]

/-- Witness for C4: the spec scenario `histogram([], 10)` fails with the
empty-input error. -/
theorem histogram_error_conditions_witness :
    calculate ([] : List ℚ) 10 = Except.error "No fare data available for histogram" :=
  (histogram_error_conditions ([] : List ℚ) 10).2.1.mpr ⟨⟨by decide, by decide⟩, rfl⟩

/-- C5, counterexample: a `Fare` cell holding the non-numeric text `"abc"`
does NOT become null after coercion — the failed `float(...)` conversion is
swallowed (`except: pass`) and the cell keeps its original string. -/
theorem coercion_failure_not_null_cx :
    convert_types (fun k => if k = "Fare" then some (Value.str "abc") else none) "Fare"
        = some (Value.str "abc") ∧
    convert_types (fun k => if k = "Fare" then some (Value.str "abc") else none) "Fare"
        ≠ some Value.null := by
  refine ⟨by with_unfolding_all decide, by with_unfolding_all decide⟩

/-- C5, amended: when a declared numeric column holds non-numeric text that
is not a sentinel, the load does not fail, the cell keeps its original
string (it does not become null), the row is retained, and the value is
excluded from the fare projection used for the histogram. -/
theorem coercion_failure_keeps_string (r : Row) (s : String)
    (hf : r "Fare" = some (Value.str s)) (hp : pyFloat? s = none)
    (h1 : s ≠ "") (h2 : s ≠ "None") :
    convert_types r "Fare" = some (Value.str s) ∧
    (∀ ds : Dataset, ds.data = [convert_types r] → get_fare_data ds = []) := by
  have hcell : convert_types r "Fare" = some (Value.str s) := by
    rw [convert_types_apply, hf]
    rw [if_neg (by decide : ¬ ("Fare" ∈ numeric_fields)),
      if_pos (by decide : "Fare" ∈ float_fields)]
    show Option.map sentinel (floatCell (some (Value.str s))) = some (Value.str s)
    have hfc : floatCell (some (Value.str s)) = some (Value.str s) := by
      simp [floatCell, Value.truthy, h1, pyFloatOf, hp]
    rw [hfc]
    show some (sentinel (Value.str s)) = some (Value.str s)
    unfold sentinel
    rw [if_neg (by simp [h1, h2])]
  refine ⟨hcell, fun ds hds => ?_⟩
  unfold get_fare_data
  rw [hds]
  simp [Row.get, hcell]

/-- Witness for C5 at the spec scenario `Fare = "abc"`. -/
theorem coercion_failure_keeps_string_witness :
    convert_types (fun k => if k = "Fare" then some (Value.str "abc") else none) "Fare"
        = some (Value.str "abc") ∧
    (∀ ds : Dataset,
      ds.data = [convert_types (fun k => if k = "Fare" then some (Value.str "abc") else none)] →
      get_fare_data ds = []) :=
  coercion_failure_keeps_string _ "abc" (by with_unfolding_all decide)
    (by with_unfolding_all decide) (by decide) (by decide)

/-- C6, counterexample: the sentinel `"NULL"` is NOT mapped to null by the
loader — only the exact strings `""` and `"None"` are. -/
theorem sentinel_only_exact_cx :
    convert_types (fun k => if k = "Cabin" then some (Value.str "NULL") else none) "Cabin"
        = some (Value.str "NULL") ∧
    convert_types (fun k => if k = "Cabin" then some (Value.str "NULL") else none) "Cabin"
        ≠ some Value.null := by
  refine ⟨by with_unfolding_all decide, by with_unfolding_all decide⟩

/-- C6, amended: for every row and cell, the CSV loader maps exactly the two
sentinel strings `""` and `"None"` (exact case) to null: after coercion a
cell is null iff it was null, `""`, or `"None"`, so `"NULL"`, `"null"` and
other case variants are left unchanged.  The SQLite loader passes every cell
through verbatim, so it applies no sentinel conversion at all: a cell is
null after loading iff it was null in the store. -/
theorem loader_sentinel_null_characterisation (r : Row) (k : String) :
    (convert_types r k = some Value.null ↔
      (r k = some Value.null ∨ r k = some (Value.str "") ∨
        r k = some (Value.str "None"))) ∧
    sqlite_row_convert r k = r k ∧
    (sqlite_row_convert r k = some Value.null ↔ r k = some Value.null) :=
  ⟨convert_types_null_iff r k, rfl, Iff.rfl⟩

/-- C7: `attributes_by_id` fails with InvalidArgument exactly when the id is
non-positive, the attribute list is empty, or some requested name is not in
the dataset's column set; in the unknown-name case the error carries the
offending names and no partial data is produced. -/
theorem attributes_validation (ds : Dataset) (id : ℤ) (attrs : List String) :
    ((∃ e, get_passenger_attributes ds id attrs = Except.error e) ↔
      (id ≤ 0 ∨ attrs = [] ∨ ∃ a ∈ attrs, ds.columns.contains a = false)) ∧
    (0 < id → attrs ≠ [] →
      attrs.filter (fun a => !ds.columns.contains a) ≠ [] →
      get_passenger_attributes ds id attrs =
        Except.error ("Invalid attributes requested: " ++
          toString (attrs.filter (fun a => !ds.columns.contains a)))) := by
  by_cases hid : id ≤ 0
  · have hga : get_passenger_attributes ds id attrs =
        Except.error "Passenger ID must be positive" := by
      unfold get_passenger_attributes validate_passenger_id
      rw [if_pos hid]
      rfl
    exact ⟨⟨fun _ => Or.inl hid, fun _ => ⟨_, hga⟩⟩,
      fun h0 => absurd h0 (by omega)⟩
  · have hA : validate_passenger_id id = Except.ok () := by
      unfold validate_passenger_id
      rw [if_neg hid]
    by_cases hattrs : attrs = []
    · have hga : get_passenger_attributes ds id attrs =
          Except.error "At least one attribute must be specified, empty attributes list provided" := by
        unfold get_passenger_attributes validate_attributes
        rw [hA, if_pos hattrs]
        rfl
      exact ⟨⟨fun _ => Or.inr (Or.inl hattrs), fun _ => ⟨_, hga⟩⟩,
        fun _ hne => absurd hattrs hne⟩
    · cases hfil : attrs.filter (fun a => !ds.columns.contains a) with
      | nil =>
          have hB : validate_attributes attrs ds.columns = Except.ok () := by
            unfold validate_attributes
            rw [if_neg hattrs, hfil]
          constructor
          · constructor
            · rintro ⟨e, he⟩
              exfalso
              unfold get_passenger_attributes at he
              rw [hA, hB] at he
              cases hfind : ds.data.find? (matchesId id) with
              | some row => rw [hfind] at he; exact Except.noConfusion he
              | none => rw [hfind] at he; exact Except.noConfusion he
            · rintro (h | h | ⟨a, ha, hc⟩)
              · omega
              · exact absurd h hattrs
              · exfalso
                have : a ∈ attrs.filter (fun a => !ds.columns.contains a) := by
                  rw [List.mem_filter]
                  exact ⟨ha, by rw [hc]; rfl⟩
                rw [hfil] at this
                cases this
          · intro _ _ hne
            exact absurd rfl hne
      | cons b t =>
          have hga : get_passenger_attributes ds id attrs =
              Except.error ("Invalid attributes requested: " ++ toString (b :: t)) := by
            unfold get_passenger_attributes validate_attributes
            rw [hA, if_neg hattrs, hfil]
            rfl
          constructor
          · constructor
            · intro _
              refine Or.inr (Or.inr ⟨b, ?_, ?_⟩)
              · have : b ∈ attrs.filter (fun a => !ds.columns.contains a) := by
                  rw [hfil]; simp
                exact (List.mem_filter.mp this).1
              · have : b ∈ attrs.filter (fun a => !ds.columns.contains a) := by
                  rw [hfil]; simp
                have hb := (List.mem_filter.mp this).2
                simpa using hb
            · intro _
              exact ⟨_, hga⟩
          · intro _ _ _
            exact hga

/-- Witness for C7: requesting the unknown column `"Nope"` on a dataset with
column set `["Name"]` fails with the error naming the offending attribute. -/
theorem attributes_validation_witness :
    get_passenger_attributes ⟨[], ["Name"]⟩ 1 ["Nope"] =
      Except.error ("Invalid attributes requested: " ++
        toString (["Nope"].filter (fun a => !(["Name"].contains a)))) :=
  (attributes_validation ⟨[], ["Name"]⟩ 1 ["Nope"]).2 (by decide) (by decide)
    (by decide)

/-- C8: `passenger_by_id` fails with InvalidArgument exactly when `id ≤ 0`;
otherwise it is a linear first-match lookup by id equality over the raw rows
in source order, and it returns a non-error not-found result (`none`) both
when no row matches and — since the result is `validatePassenger row` —
when the first matching row fails Passenger validation. -/
theorem passenger_lookup (ds : Dataset) (id : ℤ) :
    ((∃ e, get_passenger_by_id ds id = Except.error e) ↔ id ≤ 0) ∧
    (0 < id → ∀ pre row post, ds.data = pre ++ row :: post →
        (∀ r2 ∈ pre, matchesId id r2 = false) → matchesId id row = true →
        get_passenger_by_id ds id = Except.ok (validatePassenger row)) ∧
    (0 < id → (∀ r ∈ ds.data, matchesId id r = false) →
        get_passenger_by_id ds id = Except.ok none) := by
  by_cases hid : id ≤ 0
  · have hga : get_passenger_by_id ds id =
        Except.error "Passenger ID must be positive" := by
      unfold get_passenger_by_id validate_passenger_id
      rw [if_pos hid]
      rfl
    exact ⟨⟨fun _ => hid, fun _ => ⟨_, hga⟩⟩,
      fun h0 => absurd h0 (by omega), fun h0 => absurd h0 (by omega)⟩
  · have hA : validate_passenger_id id = Except.ok () := by
      unfold validate_passenger_id
      rw [if_neg hid]
    refine ⟨⟨?_, fun h => absurd h hid⟩, ?_, ?_⟩
    · rintro ⟨e, he⟩
      exfalso
      unfold get_passenger_by_id at he
      rw [hA] at he
      cases hfind : ds.data.find? (matchesId id) with
      | some row => rw [hfind] at he; exact Except.noConfusion he
      | none => rw [hfind] at he; exact Except.noConfusion he
    · intro h0 pre row post hdata hpre hrow
      unfold get_passenger_by_id
      rw [hA, hdata, find?_first _ _ _ _ hpre hrow]
      rfl
    · intro h0 hnone
      unfold get_passenger_by_id
      rw [hA, List.find?_eq_none.mpr (fun x hx => by simp [hnone x hx])]
      rfl

/-- Witness for C8 at the spec scenario: `passenger_by_id(999)` on a three
row dataset with ids `{1, 2, 3}` returns not-found without an error. -/
theorem passenger_lookup_witness :
    get_passenger_by_id ⟨[mkIdRow 1, mkIdRow 2, mkIdRow 3], []⟩ 999 = Except.ok none :=
  (passenger_lookup ⟨[mkIdRow 1, mkIdRow 2, mkIdRow 3], []⟩ 999).2.2 (by decide)
    (by with_unfolding_all decide)

/-- C9: `passenger_by_id` is idempotent — it is a pure function of the
dataset and the id, so two successive calls with the same arguments on an
unchanged dataset return identical results. -/
theorem passenger_by_id_idempotent (ds : Dataset) (id : ℤ) :
    get_passenger_by_id ds id = get_passenger_by_id ds id := rfl

/-- C10: the fare projection feeding the histogram is exactly the
null/non-numeric-skipping column extraction followed by an additional
non-negativity filter: a row whose `Fare` cell is a negative number is
silently excluded.  In particular a single-row dataset with `Fare = -5.0`
yields an empty fare projection. -/
theorem fare_projection_nonneg :
    (∀ ds : Dataset,
      get_fare_data ds =
        ((ds.data.map (fun r => r.get "Fare")).filterMap numericCell).filter
          (fun q => decide (0 ≤ q))) ∧
    get_fare_data ⟨[fun k => if k = "Fare" then some (Value.float (-5)) else none], []⟩
      = [] := by
  constructor
  · intro ds
    obtain ⟨l, cols⟩ := ds
    show l.filterMap _ = ((l.map _).filterMap _).filter _
    induction l with
    | nil => rfl
    | cons r t ih =>
        simp only [List.filterMap_cons, List.map_cons]
        cases hv : r.get "Fare" with
        | int n =>
            by_cases hn : (0 : ℤ) ≤ n
            · have hq : (0 : ℚ) ≤ (n : ℚ) := by exact_mod_cast hn
              simp [numericCell, hn, hq, ih]
            · have hq : ¬ (0 : ℚ) ≤ (n : ℚ) := by exact_mod_cast hn
              simp [numericCell, hn, hq, ih]
        | float q =>
            by_cases hq : (0 : ℚ) ≤ q
            · simp [numericCell, hq, ih]
            · simp [numericCell, hq, ih]
        | str s => simp [numericCell, ih]
        | null => simp [numericCell, ih]
  · with_unfolding_all decide

end Titanic
